import Mathlib

/-!
Verification of the calculator-pipe steel tube weight calculator.

The repository computes per-length and total mass of hollow steel tube
(round / square / rectangular cross-section).  It contains three formula
generations:

* `src/unnamed/part_000` — one shared unit selector (mm / in), shortcut
  weight formulas for round (constant 0.02466), square and rectangle,
  all per metre;
* `src/app/page.tsx`, first half ("generation 1") — round tube with
  constants 10.69 (kg/ft) and 24.66 (kg/m), square tube with the
  4·T·(S−T)·7.85/1000 shortcut, validation `od > t`;
* `src/app/page.tsx`, second half ("generation 2") — exact geometry plus
  density 7.85e-6 kg/mm³ (`areaRoundMm2`, `areaSquareTubeMm2`,
  `kgPerUnitFromArea`), validation `od > 2·t`.

JavaScript numbers are modelled as `Option ℝ`: `some x` is the finite
number `x`, `none` is the NaN sentinel (the code funnels every non-finite
value to NaN before use, so one sentinel suffices).  `Math.PI` is
modelled as the real number π.  Every comparison on JS numbers is strict
in NaN: a comparison with NaN as either operand is false, exactly as in
the source.
-/

open scoped Classical

/-- A JavaScript number after the code's `Number.isFinite` normalisation:
`some x` is a finite real, `none` is the NaN sentinel. -/
abbrev JSNum := Option ℝ

/-- JS multiplication: NaN-propagating product. -/
def jmul : JSNum → JSNum → JSNum
  | some a, some b => some (a * b)
  | _, _ => none

/-- JS addition: NaN-propagating sum. -/
def jadd : JSNum → JSNum → JSNum
  | some a, some b => some (a + b)
  | _, _ => none

/-- JS subtraction: NaN-propagating difference. -/
def jsub : JSNum → JSNum → JSNum
  | some a, some b => some (a - b)
  | _, _ => none

/-- JS division (used only with nonzero literal divisors in the source):
NaN-propagating quotient. -/
noncomputable def jdiv : JSNum → JSNum → JSNum
  | some a, some b => some (a / b)
  | _, _ => none

/-- JS strict `>`: false whenever either operand is NaN. -/
def jgt : JSNum → JSNum → Prop
  | some a, some b => b < a
  | _, _ => False

/-- Both `a` and `b` are non-NaN and `a < b`: used to state strict
monotonicity of NaN-valued results. -/
def jslt (x y : JSNum) : Prop := ∃ a b, x = some a ∧ y = some b ∧ a < b

/-- The result record shared by all three generations:
`ok` is the validity flag, `wPerUnit` the weight per run unit
(named `wPerM` in part_000), `total` the total weight.  Invalid
computations carry NaN in both numeric fields. -/
structure CalcResult where
  ok : Bool
  wPerUnit : JSNum
  total : JSNum

/-- Run-length units of page.tsx (`type LenUnit = "ft" | "m"`). -/
inductive LenUnit | ft | m
deriving DecidableEq

namespace Part0

/-- The `type PipeType = "round" | "square" | "rectangle"` union of part_000. -/
inductive PipeType | round | square | rectangle
deriving DecidableEq

/-- The `type Unit = "mm" | "in"` union of part_000: the single shared dimension
unit selector. -/
inductive DimUnit | mm | inch
deriving DecidableEq

/-- Constant `IN_TO_MM = 25.4` of part_000. -/
def IN_TO_MM : ℝ := 25.4

/-- Function `n(v)` of part_000: the parsed value when finite, else NaN.  The
argument is the result of JavaScript `Number(v)` (`none` when `Number`
returned NaN or ±Infinity), so the body is the identity on the model. -/
def n : JSNum → JSNum
  | some x => some x
  | none => none

/-- Function `mm(v)` of part_000: multiply by 25.4 when the shared unit selector
is inches, otherwise pass through. -/
def mm (unit : DimUnit) (v : JSNum) : JSNum :=
  match unit with
  | .inch => jmul v (some IN_TO_MM)
  | .mm => v

/-- The normalisation `mm` on a finite value, as a plain real function. -/
def mmR (unit : DimUnit) (x : ℝ) : ℝ :=
  match unit with
  | .inch => x * IN_TO_MM
  | .mm => x

/-- Function `invalid()` of part_000: `{ ok: false, wPerM: NaN, total: NaN }`. -/
def invalid : CalcResult := ⟨false, none, none⟩

/-- The shared tail of part_000's `result`: wrap a computed `wPerM`
together with `total = Number.isFinite(L) && L > 0 ? wPerM * L : NaN`. -/
noncomputable def assemble (wPerM L : JSNum) : CalcResult :=
  ⟨true, wPerM, if L.isSome ∧ jgt L (some 0) then jmul wPerM L else none⟩

/-- The `result` memo of part_000: normalise thickness and the active
outer dimensions with the shared unit selector, guard `T > 0` and the
shape's feasibility rule, and apply the shape's shortcut weight formula
(kg per metre). -/
noncomputable def result (pipeType : PipeType) (unit : DimUnit)
    (od side width height thickness length : JSNum) : CalcResult :=
  let T := mm unit (n thickness)
  let L := n length
  if ¬ jgt T (some 0) then invalid
  else
    match pipeType with
    | .round =>
      let OD := mm unit (n od)
      if ¬ jgt OD (jmul (some 2) T) then invalid
      else assemble (jmul (jmul (some 0.02466) (jsub OD T)) T) L
    | .square =>
      let S := mm unit (n side)
      if ¬ jgt S (jmul (some 2) T) then invalid
      else assemble (jdiv (jmul (jmul (jmul (some 4) T) (jsub S T)) (some 7.85)) (some 1000)) L
    | .rectangle =>
      let W := mm unit (n width)
      let H := mm unit (n height)
      if ¬ (jgt W (jmul (some 2) T) ∧ jgt H (jmul (some 2) T)) then invalid
      else assemble
        (jdiv (jmul (jmul (jmul (some 2) T) (jsub (jadd W H) (jmul (some 2) T))) (some 7.85))
          (some 1000)) L

end Part0

namespace Page

/-- Function `num(v)` of page.tsx (both generations): the parsed value when
finite, else NaN.  As in `Part0.n`, the argument models the result of
JavaScript `Number(v)`. -/
def num : JSNum → JSNum
  | some x => some x
  | none => none

/-- Function `clampNonNegative(n)` of page.tsx: keep a finite value `≥ 0`,
anything else (NaN or negative) becomes NaN. -/
noncomputable def clampNonNegative : JSNum → JSNum
  | some a => if 0 ≤ a then some a else none
  | none => none

end Page

namespace Gen1

/-- The `round` memo of page.tsx generation 1: OD and thickness in
inches, validation `t > 0 && od > t`, shortcut weight
`10.69·(od−t)·t` kg/ft or `24.66·(od−t)·t` kg/m. -/
noncomputable def round (odIn thIn roundLen : JSNum) (roundLenUnit : LenUnit) : CalcResult :=
  let od := Page.clampNonNegative (Page.num odIn)
  let t := Page.clampNonNegative (Page.num thIn)
  let L := Page.clampNonNegative (Page.num roundLen)
  if ¬ (od.isSome ∧ t.isSome ∧ jgt t (some 0) ∧ jgt od t) then ⟨false, none, none⟩
  else
    let wPerUnit :=
      match roundLenUnit with
      | .ft => jmul (jmul (some 10.69) (jsub od t)) t
      | .m => jmul (jmul (some 24.66) (jsub od t)) t
    ⟨true, wPerUnit, if L.isSome ∧ jgt L (some 0) then jmul wPerUnit L else none⟩

/-- The `square` memo of page.tsx generation 1: side and thickness in
mm, validation `t > 0 && S > t`, shortcut weight
`4·t·(S−t)·7.85/1000` kg/m. -/
noncomputable def square (sideMm thMm sqLenM : JSNum) : CalcResult :=
  let S := Page.clampNonNegative (Page.num sideMm)
  let t := Page.clampNonNegative (Page.num thMm)
  let L := Page.clampNonNegative (Page.num sqLenM)
  if ¬ (S.isSome ∧ t.isSome ∧ jgt t (some 0) ∧ jgt S t) then ⟨false, none, none⟩
  else
    let wPerUnit := jdiv (jmul (jmul (jmul (some 4) t) (jsub S t)) (some 7.85)) (some 1000)
    ⟨true, wPerUnit, if L.isSome ∧ jgt L (some 0) then jmul wPerUnit L else none⟩

end Gen1

namespace Gen2

/-- Constant `IN_TO_MM = 25.4` of page.tsx generation 2. -/
def IN_TO_MM : ℝ := 25.4

/-- Constant `FT_TO_MM = 304.8` of page.tsx generation 2. -/
def FT_TO_MM : ℝ := 304.8

/-- Constant `M_TO_MM = 1000` of page.tsx generation 2. -/
def M_TO_MM : ℝ := 1000

/-- Constant `STEEL_DENSITY_KG_PER_MM3 = 7.85e-6` of page.tsx generation 2. -/
def STEEL_DENSITY_KG_PER_MM3 : ℝ := 7.85e-6

/-- Function `inchesToMm(xIn)` of page.tsx generation 2. -/
def inchesToMm (xIn : ℝ) : ℝ := xIn * IN_TO_MM

/-- Function `areaRoundMm2(odMm, tMm)` of page.tsx generation 2: annulus area
`(Math.PI/4)·(od·od − id·id)` with `id = od − 2t`, NaN when the inner
diameter is not strictly positive (or an input is NaN). -/
noncomputable def areaRoundMm2 (odMm tMm : JSNum) : JSNum :=
  let idMm := jsub odMm (jmul (some 2) tMm)
  if ¬ jgt idMm (some 0) then none
  else jmul (some (Real.pi / 4)) (jsub (jmul odMm odMm) (jmul idMm idMm))

/-- Function `areaSquareTubeMm2(sideMm, tMm)` of page.tsx generation 2: square
tube metal area `side·side − inner·inner` with `inner = side − 2t`,
NaN when the inner side is not strictly positive (or an input is NaN). -/
noncomputable def areaSquareTubeMm2 (sideMm tMm : JSNum) : JSNum :=
  let inner := jsub sideMm (jmul (some 2) tMm)
  if ¬ jgt inner (some 0) then none
  else jsub (jmul sideMm sideMm) (jmul inner inner)

/-- Function `kgPerUnitFromArea(areaMm2, unit)` of page.tsx generation 2: volume
of one run unit times the steel density. -/
noncomputable def kgPerUnitFromArea (areaMm2 : JSNum) (unit : LenUnit) : JSNum :=
  let lenMm := match unit with | .ft => FT_TO_MM | .m => M_TO_MM
  let volMm3 := jmul areaMm2 (some lenMm)
  jmul volMm3 (some STEEL_DENSITY_KG_PER_MM3)

/-- The `round` memo of page.tsx generation 2: OD in inches, thickness
in mm; OD is normalised with `inchesToMm`, validation
`tMm > 0 && odMm > 2·tMm`, weight from exact geometry plus density. -/
noncomputable def round (odIn thMmRound roundLen : JSNum) (roundLenUnit : LenUnit) :
    CalcResult :=
  let odInVal := Page.clampNonNegative (Page.num odIn)
  let tMm := Page.clampNonNegative (Page.num thMmRound)
  let L := Page.clampNonNegative (Page.num roundLen)
  let odMm := match odInVal with
    | some x => some (inchesToMm x)
    | none => none
  if ¬ (odMm.isSome ∧ tMm.isSome ∧ jgt tMm (some 0) ∧ jgt odMm (jmul (some 2) tMm)) then
    ⟨false, none, none⟩
  else
    let area := areaRoundMm2 odMm tMm
    let wPerUnit := kgPerUnitFromArea area roundLenUnit
    ⟨true, wPerUnit, if L.isSome ∧ jgt L (some 0) then jmul wPerUnit L else none⟩

/-- The `square` memo of page.tsx generation 2: side in inches,
thickness in mm; side normalised with `inchesToMm`, validation
`tMm > 0 && sideMm > 2·tMm`, weight from exact geometry plus density. -/
noncomputable def square (sideIn thMmSq sqLen : JSNum) (sqLenUnit : LenUnit) : CalcResult :=
  let sideInVal := Page.clampNonNegative (Page.num sideIn)
  let tMm := Page.clampNonNegative (Page.num thMmSq)
  let L := Page.clampNonNegative (Page.num sqLen)
  let sideMm := match sideInVal with
    | some x => some (inchesToMm x)
    | none => none
  if ¬ (sideMm.isSome ∧ tMm.isSome ∧ jgt tMm (some 0) ∧ jgt sideMm (jmul (some 2) tMm)) then
    ⟨false, none, none⟩
  else
    let area := areaSquareTubeMm2 sideMm tMm
    let wPerUnit := kgPerUnitFromArea area sqLenUnit
    ⟨true, wPerUnit, if L.isSome ∧ jgt L (some 0) then jmul wPerUnit L else none⟩

end Gen2

namespace Spec

/-- The spec's `lengthFactorMm(runUnit)`: millimetres in one run unit
(foot → 304.8, meter → 1000). -/
def lengthFactorMm : LenUnit → ℝ
  | .ft => 304.8
  | .m => 1000

/-- The spec's exact round-tube weight per run unit, following §4.3–4.4
of the specification: annulus area `(π/4)·(OD² − (OD − 2T)²)` in mm²,
times the run unit's length in mm, times density 7.85e-6 kg/mm³. -/
noncomputable def roundWeightPerUnit (odMm tMm : ℝ) (u : LenUnit) : ℝ :=
  (Real.pi / 4) * (odMm ^ 2 - (odMm - 2 * tMm) ^ 2) * lengthFactorMm u * 7.85e-6

/-- The spec's exact square-tube weight per metre: metal area
`S² − (S − 2T)²` in mm², times 1000 mm, times density 7.85e-6 kg/mm³. -/
def squareWeightPerMeter (s t : ℝ) : ℝ :=
  (s ^ 2 - (s - 2 * t) ^ 2) * 1000 * 7.85e-6

/-- The spec's exact rectangle-tube weight per metre: metal area
`W·H − (W − 2T)·(H − 2T)` in mm², times 1000 mm, times density
7.85e-6 kg/mm³. -/
def rectWeightPerMeter (w h t : ℝ) : ℝ :=
  (w * h - (w - 2 * t) * (h - 2 * t)) * 1000 * 7.85e-6

end Spec

/-! ## Helper lemmas -/

@[simp] theorem jmul_some_some (a b : ℝ) : jmul (some a) (some b) = some (a * b) := rfl
@[simp] theorem jadd_some_some (a b : ℝ) : jadd (some a) (some b) = some (a + b) := rfl
@[simp] theorem jsub_some_some (a b : ℝ) : jsub (some a) (some b) = some (a - b) := rfl
@[simp] theorem jdiv_some_some (a b : ℝ) : jdiv (some a) (some b) = some (a / b) := rfl
@[simp] theorem jmul_none_left (x : JSNum) : jmul none x = none := rfl
@[simp] theorem jmul_none_right (x : JSNum) : jmul x none = none := by cases x <;> rfl
@[simp] theorem jsub_none_left (x : JSNum) : jsub none x = none := rfl
@[simp] theorem jsub_none_right (x : JSNum) : jsub x none = none := by cases x <;> rfl
@[simp] theorem jgt_some_some (a b : ℝ) : jgt (some a) (some b) ↔ b < a := Iff.rfl
@[simp] theorem jgt_none_left (x : JSNum) : ¬ jgt none x := by cases x <;> exact id
@[simp] theorem jgt_none_right (x : JSNum) : ¬ jgt x none := by cases x <;> exact id

theorem jgt_elim {x y : JSNum} (h : jgt x y) :
    ∃ a b, x = some a ∧ y = some b ∧ b < a := by
  cases x with
  | none => cases h
  | some a =>
    cases y with
    | none => cases h
    | some b => exact ⟨a, b, rfl, rfl, h⟩

namespace Part0

@[simp] theorem mm_some (u : DimUnit) (x : ℝ) : mm u (some x) = some (mmR u x) := by
  cases u <;> rfl

@[simp] theorem mm_none (u : DimUnit) : mm u none = none := by
  cases u <;> rfl

@[simp] theorem n_some (x : ℝ) : n (some x) = some x := rfl
@[simp] theorem n_none : n none = none := rfl

end Part0

namespace Page

@[simp] theorem num_some (x : ℝ) : num (some x) = some x := rfl
@[simp] theorem num_none : num none = none := rfl
@[simp] theorem clampNonNegative_none : clampNonNegative none = none := rfl

theorem clampNonNegative_some_of_nonneg {a : ℝ} (h : 0 ≤ a) :
    clampNonNegative (some a) = some a := by
  simp [clampNonNegative, h]

theorem clampNonNegative_some_of_neg {a : ℝ} (h : a < 0) :
    clampNonNegative (some a) = none := by
  simp [clampNonNegative, not_le.mpr h]

end Page

namespace Part0

@[simp] theorem n_id (x : JSNum) : n x = x := by cases x <;> rfl

theorem result_thickness_none (pt : PipeType) (u : DimUnit) (od s w h L : JSNum) :
    result pt u od s w h none L = invalid := by
  cases pt <;> simp [result]

theorem result_round_od_none (u : DimUnit) (s w h t L : JSNum) :
    result .round u none s w h t L = invalid := by
  by_cases hT : jgt (mm u (n t)) (some 0)
  · simp [result, hT]
  · simp [result, hT]

theorem result_round_eq (u : DimUnit) (od t : ℝ) (s w h L : JSNum)
    (h1 : 0 < mmR u t) (h2 : 2 * mmR u t < mmR u od) :
    result .round u (some od) s w h (some t) L =
      ⟨true, some (0.02466 * (mmR u od - mmR u t) * mmR u t),
        if L.isSome ∧ jgt L (some 0)
          then jmul (some (0.02466 * (mmR u od - mmR u t) * mmR u t)) L else none⟩ := by
  simp [result, assemble, h1, h2]

theorem result_square_eq (u : DimUnit) (sd t : ℝ) (od w h L : JSNum)
    (h1 : 0 < mmR u t) (h2 : 2 * mmR u t < mmR u sd) :
    result .square u od (some sd) w h (some t) L =
      ⟨true, some (4 * mmR u t * (mmR u sd - mmR u t) * 7.85 / 1000),
        if L.isSome ∧ jgt L (some 0)
          then jmul (some (4 * mmR u t * (mmR u sd - mmR u t) * 7.85 / 1000)) L else none⟩ := by
  simp [result, assemble, h1, h2]

theorem result_rect_eq (u : DimUnit) (wd ht t : ℝ) (od s L : JSNum)
    (h1 : 0 < mmR u t) (h2 : 2 * mmR u t < mmR u wd) (h3 : 2 * mmR u t < mmR u ht) :
    result .rectangle u od s (some wd) (some ht) (some t) L =
      ⟨true, some (2 * mmR u t * (mmR u wd + mmR u ht - 2 * mmR u t) * 7.85 / 1000),
        if L.isSome ∧ jgt L (some 0)
          then jmul (some (2 * mmR u t * (mmR u wd + mmR u ht - 2 * mmR u t) * 7.85 / 1000)) L
          else none⟩ := by
  simp [result, assemble, h1, h2, h3]

end Part0

namespace Gen1

theorem g1_round_eq_valid (od t : ℝ) (L : JSNum) (u : LenUnit)
    (h0 : 0 < t) (h1 : t < od) :
    round (some od) (some t) L u =
      (let w : JSNum := match u with
        | .ft => some (10.69 * (od - t) * t)
        | .m => some (24.66 * (od - t) * t)
       let Lc := Page.clampNonNegative (Page.num L)
       ⟨true, w, if Lc.isSome ∧ jgt Lc (some 0) then jmul w Lc else none⟩) := by
  have hod : 0 ≤ od := le_of_lt (h0.trans h1)
  have ht : 0 ≤ t := le_of_lt h0
  cases u <;>
    simp [round, Page.clampNonNegative_some_of_nonneg hod,
      Page.clampNonNegative_some_of_nonneg ht, h0, h1]

theorem g1_round_invalid_of_dims (x y : JSNum) (L : JSNum) (u : LenUnit)
    (h : ¬ ((Page.clampNonNegative (Page.num x)).isSome ∧
            (Page.clampNonNegative (Page.num y)).isSome ∧
            jgt (Page.clampNonNegative (Page.num y)) (some 0) ∧
            jgt (Page.clampNonNegative (Page.num x)) (Page.clampNonNegative (Page.num y)))) :
    round x y L u = ⟨false, none, none⟩ := by
  simp only [round]
  rw [if_pos h]

end Gen1

namespace Gen2

@[simp] theorem kgPerUnitFromArea_some (a : ℝ) (u : LenUnit) :
    kgPerUnitFromArea (some a) u =
      some (a * (match u with | .ft => FT_TO_MM | .m => M_TO_MM) * STEEL_DENSITY_KG_PER_MM3) := by
  cases u <;> rfl

@[simp] theorem kgPerUnitFromArea_none (u : LenUnit) :
    kgPerUnitFromArea none u = none := by
  cases u <;> rfl

theorem areaRoundMm2_eq (od t : ℝ) (h : 0 < od - 2 * t) :
    areaRoundMm2 (some od) (some t) =
      some (Real.pi / 4 * (od * od - (od - 2 * t) * (od - 2 * t))) := by
  simp [areaRoundMm2, h]

theorem areaSquareTubeMm2_eq (s t : ℝ) (h : 0 < s - 2 * t) :
    areaSquareTubeMm2 (some s) (some t) =
      some (s * s - (s - 2 * t) * (s - 2 * t)) := by
  simp [areaSquareTubeMm2, h]

theorem g2_round_eq_valid (od t : ℝ) (L : JSNum) (u : LenUnit)
    (hod : 0 ≤ od) (h0 : 0 < t) (h2 : 2 * t < inchesToMm od) :
    round (some od) (some t) L u =
      (let w := kgPerUnitFromArea (areaRoundMm2 (some (inchesToMm od)) (some t)) u
       let Lc := Page.clampNonNegative (Page.num L)
       ⟨true, w, if Lc.isSome ∧ jgt Lc (some 0) then jmul w Lc else none⟩) := by
  simp [round, Page.clampNonNegative_some_of_nonneg hod,
    Page.clampNonNegative_some_of_nonneg (le_of_lt h0), h0, h2]

theorem g2_square_eq_valid (s t : ℝ) (L : JSNum) (u : LenUnit)
    (hs : 0 ≤ s) (h0 : 0 < t) (h2 : 2 * t < inchesToMm s) :
    square (some s) (some t) L u =
      (let w := kgPerUnitFromArea (areaSquareTubeMm2 (some (inchesToMm s)) (some t)) u
       let Lc := Page.clampNonNegative (Page.num L)
       ⟨true, w, if Lc.isSome ∧ jgt Lc (some 0) then jmul w Lc else none⟩) := by
  simp [square, Page.clampNonNegative_some_of_nonneg hs,
    Page.clampNonNegative_some_of_nonneg (le_of_lt h0), h0, h2]

theorem g2_round_invalid_of_dims (x y : JSNum) (L : JSNum) (u : LenUnit)
    (h : ¬ ((match Page.clampNonNegative (Page.num x) with
              | some v => some (inchesToMm v)
              | none => none : JSNum).isSome ∧
            (Page.clampNonNegative (Page.num y)).isSome ∧
            jgt (Page.clampNonNegative (Page.num y)) (some 0) ∧
            jgt (match Page.clampNonNegative (Page.num x) with
              | some v => some (inchesToMm v)
              | none => none : JSNum)
              (jmul (some 2) (Page.clampNonNegative (Page.num y))))) :
    round x y L u = ⟨false, none, none⟩ := by
  simp only [round]
  rw [if_pos h]

end Gen2

namespace Part0

@[simp] theorem mmR_mm (x : ℝ) : mmR .mm x = x := rfl
@[simp] theorem mmR_inch (x : ℝ) : mmR .inch x = x * IN_TO_MM := rfl

end Part0

namespace Page

theorem clamp_cases (x : ℝ) :
    (0 ≤ x ∧ clampNonNegative (some x) = some x) ∨
    (x < 0 ∧ clampNonNegative (some x) = none) := by
  rcases le_or_lt 0 x with hx | hx
  · exact Or.inl ⟨hx, clampNonNegative_some_of_nonneg hx⟩
  · exact Or.inr ⟨hx, clampNonNegative_some_of_neg hx⟩

end Page

namespace Gen1

/-- The generation-1 round validity condition on finite inputs is
`0 < t ∧ t < od` (the clamps discard negatives, but a positive
thickness below a larger OD survives them). -/
theorem round_cond_iff (od t : ℝ) :
    ((Page.clampNonNegative (Page.num (some od))).isSome ∧
     (Page.clampNonNegative (Page.num (some t))).isSome ∧
     jgt (Page.clampNonNegative (Page.num (some t))) (some 0) ∧
     jgt (Page.clampNonNegative (Page.num (some od)))
        (Page.clampNonNegative (Page.num (some t)))) ↔ 0 < t ∧ t < od := by
  rcases Page.clamp_cases od with ⟨hod, hceq⟩ | ⟨hod, hceq⟩ <;>
    rcases Page.clamp_cases t with ⟨ht, hteq⟩ | ⟨ht, hteq⟩ <;>
      simp [Page.num, hceq, hteq] <;> intro h0 <;> linarith

end Gen1

namespace Gen2

/-- The generation-2 round/square validity condition on finite inputs is
`0 < t ∧ 2·t < inchesToMm x` (negative inputs are clamped to NaN first,
but any input passing the geometric guard is automatically positive). -/
theorem cond_iff (x t : ℝ) :
    ((match Page.clampNonNegative (Page.num (some x)) with
        | some v => some (inchesToMm v)
        | none => none : JSNum).isSome ∧
     (Page.clampNonNegative (Page.num (some t))).isSome ∧
     jgt (Page.clampNonNegative (Page.num (some t))) (some 0) ∧
     jgt (match Page.clampNonNegative (Page.num (some x)) with
        | some v => some (inchesToMm v)
        | none => none : JSNum)
       (jmul (some 2) (Page.clampNonNegative (Page.num (some t))))) ↔
      0 < t ∧ 2 * t < inchesToMm x := by
  rcases Page.clamp_cases x with ⟨hx, hxeq⟩ | ⟨hx, hxeq⟩ <;>
    rcases Page.clamp_cases t with ⟨ht, hteq⟩ | ⟨ht, hteq⟩ <;>
      simp [Page.num, hxeq, hteq, inchesToMm, IN_TO_MM] <;> intro h0 <;> nlinarith

end Gen2

namespace Part0

theorem round_ok_iff (u : DimUnit) (od t : ℝ) (s w h L : JSNum) :
    (result .round u (some od) s w h (some t) L).ok = true ↔
      0 < mmR u t ∧ 2 * mmR u t < mmR u od := by
  by_cases h1 : 0 < mmR u t
  · by_cases h2 : 2 * mmR u t < mmR u od
    · rw [result_round_eq u od t s w h L h1 h2]
      simp [h1, h2]
    · simp [result, invalid, h1, h2]
  · simp [result, invalid, h1]

theorem square_ok_iff (u : DimUnit) (sd t : ℝ) (od w h L : JSNum) :
    (result .square u od (some sd) w h (some t) L).ok = true ↔
      0 < mmR u t ∧ 2 * mmR u t < mmR u sd := by
  by_cases h1 : 0 < mmR u t
  · by_cases h2 : 2 * mmR u t < mmR u sd
    · rw [result_square_eq u sd t od w h L h1 h2]
      simp [h1, h2]
    · simp [result, invalid, h1, h2]
  · simp [result, invalid, h1]

theorem rect_ok_iff (u : DimUnit) (wd ht t : ℝ) (od s L : JSNum) :
    (result .rectangle u od s (some wd) (some ht) (some t) L).ok = true ↔
      0 < mmR u t ∧ 2 * mmR u t < mmR u wd ∧ 2 * mmR u t < mmR u ht := by
  by_cases h1 : 0 < mmR u t
  · by_cases h2 : 2 * mmR u t < mmR u wd
    · by_cases h3 : 2 * mmR u t < mmR u ht
      · rw [result_rect_eq u wd ht t od s L h1 h2 h3]
        simp [h1, h2, h3]
      · simp [result, invalid, h1, h2, h3]
    · simp [result, invalid, h1, h2]
  · simp [result, invalid, h1]

end Part0

namespace Gen1

theorem g1_round_ok_iff (od t : ℝ) (L : JSNum) (u : LenUnit) :
    (round (some od) (some t) L u).ok = true ↔ 0 < t ∧ t < od := by
  rw [← round_cond_iff od t]
  by_cases hc : (Page.clampNonNegative (Page.num (some od))).isSome ∧
      (Page.clampNonNegative (Page.num (some t))).isSome ∧
      jgt (Page.clampNonNegative (Page.num (some t))) (some 0) ∧
      jgt (Page.clampNonNegative (Page.num (some od)))
        (Page.clampNonNegative (Page.num (some t)))
  · simp only [round]
    rw [if_neg (not_not_intro hc)]
    cases u <;> simpa using hc
  · rw [g1_round_invalid_of_dims _ _ _ _ hc]
    simpa using hc

end Gen1

namespace Gen2

theorem g2_round_ok_iff (x t : ℝ) (L : JSNum) (u : LenUnit) :
    (round (some x) (some t) L u).ok = true ↔ 0 < t ∧ 2 * t < inchesToMm x := by
  rw [← cond_iff x t]
  by_cases hc : ((match Page.clampNonNegative (Page.num (some x)) with
        | some v => some (inchesToMm v)
        | none => none : JSNum).isSome ∧
      (Page.clampNonNegative (Page.num (some t))).isSome ∧
      jgt (Page.clampNonNegative (Page.num (some t))) (some 0) ∧
      jgt (match Page.clampNonNegative (Page.num (some x)) with
        | some v => some (inchesToMm v)
        | none => none : JSNum)
        (jmul (some 2) (Page.clampNonNegative (Page.num (some t)))))
  · simp only [round]
    rw [if_neg (not_not_intro hc)]
    simpa using hc
  · rw [g2_round_invalid_of_dims _ _ _ _ hc]
    simpa using hc

end Gen2

/-! ## Claim theorems -/

/-- C2 counterexample: the claim fails on generation 1 of page.tsx.
With OD = 1.5 and thickness = 1 (inches) the generation-1 round memo
reports the profile valid although the outer diameter does not exceed
twice the thickness, so "outer dimension > 2 × thickness in every case"
is false as stated. -/
theorem c2_gen1_round_accepts_od_le_two_thickness :
    (Gen1.round (some (3 / 2)) (some 1) none .ft).ok = true ∧
      ¬ (2 * (1 : ℝ) < 3 / 2) := by
  constructor
  · rw [Gen1.g1_round_ok_iff]
    norm_num
  · norm_num

/-- C2 (amended): with dimensions normalised to millimetres, part_000
is valid iff thickness > 0 and every outer dimension of the active shape
strictly exceeds 2 × thickness (round, square and rectangle alike,
equality at the boundary invalid), and generation 2 of page.tsx checks
the same rule with the outer dimension converted from inches; but
generation 1 of page.tsx only requires outer diameter > thickness, so
there the 2 × thickness boundary is accepted. -/
theorem c2_validity_rules :
    (∀ (od t : ℝ) (s w h L : JSNum),
        (Part0.result .round .mm (some od) s w h (some t) L).ok = true ↔
          0 < t ∧ 2 * t < od) ∧
    (∀ (sd t : ℝ) (od w h L : JSNum),
        (Part0.result .square .mm od (some sd) w h (some t) L).ok = true ↔
          0 < t ∧ 2 * t < sd) ∧
    (∀ (wd ht t : ℝ) (od s L : JSNum),
        (Part0.result .rectangle .mm od s (some wd) (some ht) (some t) L).ok = true ↔
          0 < t ∧ 2 * t < wd ∧ 2 * t < ht) ∧
    (∀ (x t : ℝ) (L : JSNum) (u : LenUnit),
        (Gen2.round (some x) (some t) L u).ok = true ↔
          0 < t ∧ 2 * t < Gen2.inchesToMm x) ∧
    (∀ (od t : ℝ) (L : JSNum) (u : LenUnit),
        (Gen1.round (some od) (some t) L u).ok = true ↔ 0 < t ∧ t < od) := by
  refine ⟨?_, ?_, ?_, ?_, ?_⟩
  · intro od t s w h L
    simpa using Part0.round_ok_iff .mm od t s w h L
  · intro sd t od w h L
    simpa using Part0.square_ok_iff .mm sd t od w h L
  · intro wd ht t od s L
    simpa using Part0.rect_ok_iff .mm wd ht t od s L
  · intro x t L u
    exact Gen2.g2_round_ok_iff x t L u
  · intro od t L u
    exact Gen1.g1_round_ok_iff od t L u

/-- C5: for every thickness T > 0, side S > 2T, width W > 2T and height
H > 2T in millimetres, the part_000 shortcut weights
`4·T·(S−T)·7.85/1000` (square) and `2·T·((W+H)−2T)·7.85/1000`
(rectangle) agree exactly with the canonical exact-geometry values
`(S² − (S−2T)²)·1000·7.85e-6` and `(W·H − (W−2T)(H−2T))·1000·7.85e-6`. -/
theorem c5_shortcut_eq_exact (s w h t : ℝ)
    (h0 : 0 < t) (hs : 2 * t < s) (hw : 2 * t < w) (hh : 2 * t < h) :
    (Part0.result .square .mm none (some s) none none (some t) none).wPerUnit
        = some (Spec.squareWeightPerMeter s t) ∧
    (Part0.result .rectangle .mm none none (some w) (some h) (some t) none).wPerUnit
        = some (Spec.rectWeightPerMeter w h t) := by
  constructor
  · rw [Part0.result_square_eq .mm s t none none none none h0 hs]
    simp only [Option.some.injEq, Part0.mmR_mm, Spec.squareWeightPerMeter]
    norm_num
    ring
  · rw [Part0.result_rect_eq .mm w h t none none none h0 hw hh]
    simp only [Option.some.injEq, Part0.mmR_mm, Spec.rectWeightPerMeter]
    norm_num
    ring

/-- C5 witness: the shortcut/exact agreement at side 50 mm, width 40 mm,
height 30 mm, thickness 2 mm. -/
theorem c5_shortcut_eq_exact_witness :
    (0 : ℝ) < 2 ∧ 2 * (2 : ℝ) < 50 ∧ 2 * (2 : ℝ) < 40 ∧ 2 * (2 : ℝ) < 30 ∧
    ((Part0.result .square .mm none (some 50) none none (some 2) none).wPerUnit
        = some (Spec.squareWeightPerMeter 50 2) ∧
     (Part0.result .rectangle .mm none none (some 40) (some 30) (some 2) none).wPerUnit
        = some (Spec.rectWeightPerMeter 40 30 2)) :=
  ⟨by norm_num, by norm_num, by norm_num, by norm_num,
    c5_shortcut_eq_exact 50 40 30 2 (by norm_num) (by norm_num) (by norm_num) (by norm_num)⟩

/-- C1 counterexample: the claim fails on the part_000 round branch.
For OD = 3 mm, thickness = 1 mm the program returns
`0.02466·(3−1)·1` kg/m, which is not the exact geometry-plus-density
value `(π/4)·(3² − 1²)·1000·7.85e-6` kg/m (the shortcut constant
0.02466 is a rounding of π·7.85/1000 ≈ 0.0246615). -/
theorem c1_part0_round_shortcut_ne_exact :
    (Part0.result .round .mm (some 3) none none none (some 1) none).wPerUnit
      ≠ some (Spec.roundWeightPerUnit 3 1 .m) := by
  rw [Part0.result_round_eq .mm 3 1 none none none none (by norm_num) (by norm_num)]
  intro hcon
  simp only [Part0.mmR_mm, Spec.roundWeightPerUnit, Spec.lengthFactorMm,
    Option.some.injEq] at hcon
  nlinarith [Real.pi_gt_d6, hcon]

/-- C1 (amended): generation 2 of page.tsx returns exactly the
geometry-plus-density value — for every valid round profile normalised
to millimetres (T > 0, OD > 2T) and every run unit, its weight per run
unit is `(π/4)·(OD² − (OD−2T)²) × lengthFactorMm(runUnit) × 7.85e-6` —
while the part_000 round branch instead uses the rounded shortcut
constant 0.02466 in place of π·7.85/1000 and so differs from the exact
value. -/
theorem c1_gen2_round_weight_exact (odMm tMm : ℝ) (u : LenUnit)
    (_h0 : 0 < tMm) (h2 : 2 * tMm < odMm) :
    Gen2.kgPerUnitFromArea (Gen2.areaRoundMm2 (some odMm) (some tMm)) u
      = some (Spec.roundWeightPerUnit odMm tMm u) := by
  rw [Gen2.areaRoundMm2_eq odMm tMm (by linarith)]
  rw [Gen2.kgPerUnitFromArea_some]
  cases u <;>
    · simp only [Option.some.injEq, Spec.roundWeightPerUnit, Spec.lengthFactorMm,
        Gen2.FT_TO_MM, Gen2.M_TO_MM, Gen2.STEEL_DENSITY_KG_PER_MM3]
      ring

/-- C1 witness: the generation-2 weight of a 50.8 mm OD, 2 mm wall round
tube per metre is the exact annulus-times-density value. -/
theorem c1_gen2_round_weight_exact_witness :
    (0 : ℝ) < 2 ∧ 2 * (2 : ℝ) < 50.8 ∧
    Gen2.kgPerUnitFromArea (Gen2.areaRoundMm2 (some 50.8) (some 2)) .m
      = some (Spec.roundWeightPerUnit 50.8 2 .m) :=
  ⟨by norm_num, by norm_num,
    c1_gen2_round_weight_exact 50.8 2 .m (by norm_num) (by norm_num)⟩

/-- C6: unit invariance.  Normalising an inch value multiplies it by
exactly 25.4 (`inchesToMm`); in part_000 a round profile entered as
OD = 2 in, thickness = (2/25.4) in (i.e. 2 mm) computes the identical
result record as OD = 50.8 mm, thickness = 2 mm entered in millimetre
mode; and in generation 2 the round weight for OD = 2 in, thickness
2 mm is the weight computed directly from 50.8 mm. -/
theorem c6_unit_invariance :
    (∀ x : ℝ, Gen2.inchesToMm x = x * 25.4) ∧
    (∀ s w h L : JSNum,
        Part0.result .round .inch (some 2) s w h (some (2 / 25.4)) L
          = Part0.result .round .mm (some 50.8) s w h (some 2) L) ∧
    (∀ (L : JSNum) (u : LenUnit),
        (Gen2.round (some 2) (some 2) L u).wPerUnit
          = Gen2.kgPerUnitFromArea (Gen2.areaRoundMm2 (some 50.8) (some 2)) u) := by
  refine ⟨fun x => rfl, ?_, ?_⟩
  · intro s w h L
    rw [Part0.result_round_eq .inch 2 (2 / 25.4) s w h L
        (by norm_num [Part0.IN_TO_MM]) (by norm_num [Part0.IN_TO_MM]),
      Part0.result_round_eq .mm 50.8 2 s w h L (by norm_num) (by norm_num)]
    norm_num [Part0.IN_TO_MM]
  · intro L u
    rw [Gen2.g2_round_eq_valid 2 2 L u (by norm_num) (by norm_num)
        (by norm_num [Gen2.inchesToMm, Gen2.IN_TO_MM])]
    norm_num [Gen2.inchesToMm, Gen2.IN_TO_MM]

/-- C7 counterexample: the claim fails on generation 1 of page.tsx.
For OD = 2 in, thickness = 1 in the generation-1 round weight is
10.69 kg/ft, and 10.69 × (1/0.3048) ≈ 35.07 is not the 24.66 kg/m the
same profile gets in metre mode: the two shortcut constants are not
length-unit consistent. -/
theorem c7_gen1_ft_m_inconsistent :
    jmul ((Gen1.round (some 2) (some 1) none .ft).wPerUnit) (some (1 / 0.3048))
      ≠ (Gen1.round (some 2) (some 1) none .m).wPerUnit := by
  rw [Gen1.g1_round_eq_valid 2 1 none .ft (by norm_num) (by norm_num),
    Gen1.g1_round_eq_valid 2 1 none .m (by norm_num) (by norm_num)]
  intro hcon
  simp only [jmul_some_some, Option.some.injEq] at hcon
  norm_num at hcon

/-- C7 (amended): for generation 2 the identity is exact: for every
area (NaN included) the kg/ft output of `kgPerUnitFromArea`, multiplied
by 1/0.3048, equals its kg/m output, and hence the same holds for every
round result record; generation 1's shortcut constants 10.69 kg/ft and
24.66 kg/m do not satisfy this relation. -/
theorem c7_gen2_length_unit_consistency :
    (∀ a : JSNum,
        jmul (Gen2.kgPerUnitFromArea a .ft) (some (1 / 0.3048))
          = Gen2.kgPerUnitFromArea a .m) ∧
    (∀ x y L : JSNum,
        jmul ((Gen2.round x y L .ft).wPerUnit) (some (1 / 0.3048))
          = (Gen2.round x y L .m).wPerUnit) := by
  have key : ∀ a : JSNum,
      jmul (Gen2.kgPerUnitFromArea a .ft) (some (1 / 0.3048))
        = Gen2.kgPerUnitFromArea a .m := by
    intro a
    cases a with
    | none => rfl
    | some v =>
      rw [Gen2.kgPerUnitFromArea_some, Gen2.kgPerUnitFromArea_some]
      simp only [jmul_some_some, Option.some.injEq, Gen2.FT_TO_MM, Gen2.M_TO_MM,
        Gen2.STEEL_DENSITY_KG_PER_MM3]
      ring_nf
  refine ⟨key, ?_⟩
  intro x y L
  simp only [Gen2.round]
  split_ifs <;> first
    | rfl
    | exact key _

/-- C8 counterexample: the claim fails on part_000.  The text "-5"
parses to the finite negative number −5, and part_000's `n` (and the
millimetre-mode normalisation applied to it) passes −5 through
unchanged, so the value used downstream is −5, not the not-a-number
sentinel. -/
theorem c8_part0_negative_passthrough :
    Part0.mm .mm (Part0.n (some (-5))) = some (-5) ∧
      (some (-5 : ℝ) : JSNum) ≠ none := by
  exact ⟨rfl, by simp⟩

/-- C8 (amended): in page.tsx (both generations) every dimension is read
through `clampNonNegative(num(text))`, which yields the NaN sentinel
exactly when the parse is non-finite or the value is negative, returns
nonnegative values unchanged (so the sentinel is never the number 0),
and the sentinel is not `some 0`; in part_000 a non-finite parse
becomes NaN and stays NaN through unit normalisation, but a finite
negative value passes through `n` unchanged and is only rejected later
by the dimension guards. -/
theorem c8_nan_sentinel :
    (∀ x : JSNum, Page.clampNonNegative (Page.num x) = none ↔
        x = none ∨ ∃ a : ℝ, x = some a ∧ a < 0) ∧
    (∀ a : ℝ, 0 ≤ a → Page.clampNonNegative (Page.num (some a)) = some a) ∧
    (Page.clampNonNegative (Page.num none) ≠ some 0) ∧
    (∀ u : Part0.DimUnit, Part0.mm u (Part0.n none) = none) := by
  refine ⟨?_, ?_, by simp, fun u => by simp⟩
  · intro x
    cases x with
    | none => simp
    | some a =>
      rcases Page.clamp_cases a with ⟨ha, haeq⟩ | ⟨ha, haeq⟩ <;>
        simp [Page.num, haeq] <;> exact ha
  · intro a ha
    simpa [Page.num] using Page.clampNonNegative_some_of_nonneg ha

/-- C8 witness: the clamp keeps the nonnegative parse 2.5 unchanged. -/
theorem c8_nan_sentinel_witness :
    (0 : ℝ) ≤ 2.5 ∧ Page.clampNonNegative (Page.num (some 2.5)) = some 2.5 :=
  ⟨by norm_num, c8_nan_sentinel.2.1 2.5 (by norm_num)⟩

namespace Part0

theorem result_square_side_none (u : DimUnit) (od w h t L : JSNum) :
    result .square u od none w h t L = invalid := by
  by_cases hT : jgt (mm u (n t)) (some 0) <;> simp [result, hT]

theorem result_rect_width_none (u : DimUnit) (od s h t L : JSNum) :
    result .rectangle u od s none h t L = invalid := by
  by_cases hT : jgt (mm u (n t)) (some 0) <;> simp [result, hT]

theorem result_rect_height_none (u : DimUnit) (od s w t L : JSNum) :
    result .rectangle u od s w none t L = invalid := by
  by_cases hT : jgt (mm u (n t)) (some 0) <;> simp [result, hT]

end Part0

namespace Gen1

theorem g1_square_invalid_of_dims (x y L : JSNum)
    (h : ¬ ((Page.clampNonNegative (Page.num x)).isSome ∧
            (Page.clampNonNegative (Page.num y)).isSome ∧
            jgt (Page.clampNonNegative (Page.num y)) (some 0) ∧
            jgt (Page.clampNonNegative (Page.num x)) (Page.clampNonNegative (Page.num y)))) :
    square x y L = ⟨false, none, none⟩ := by
  simp only [square]
  rw [if_pos h]

theorem g1_square_eq_valid (s t : ℝ) (L : JSNum) (h0 : 0 < t) (h1 : t < s) :
    square (some s) (some t) L =
      (let w : JSNum := some (4 * t * (s - t) * 7.85 / 1000)
       let Lc := Page.clampNonNegative (Page.num L)
       ⟨true, w, if Lc.isSome ∧ jgt Lc (some 0) then jmul w Lc else none⟩) := by
  have hs : 0 ≤ s := le_of_lt (h0.trans h1)
  simp [square, Page.clampNonNegative_some_of_nonneg hs,
    Page.clampNonNegative_some_of_nonneg (le_of_lt h0), h0, h1]

theorem g1_square_ok_iff (s t : ℝ) (L : JSNum) :
    (square (some s) (some t) L).ok = true ↔ 0 < t ∧ t < s := by
  rw [← round_cond_iff s t]
  by_cases hc : (Page.clampNonNegative (Page.num (some s))).isSome ∧
      (Page.clampNonNegative (Page.num (some t))).isSome ∧
      jgt (Page.clampNonNegative (Page.num (some t))) (some 0) ∧
      jgt (Page.clampNonNegative (Page.num (some s)))
        (Page.clampNonNegative (Page.num (some t)))
  · simp only [square]
    rw [if_neg (not_not_intro hc)]
    simpa using hc
  · rw [g1_square_invalid_of_dims _ _ _ hc]
    simpa using hc

end Gen1

namespace Gen2

theorem g2_square_invalid_of_dims (x y L : JSNum) (u : LenUnit)
    (h : ¬ ((match Page.clampNonNegative (Page.num x) with
              | some v => some (inchesToMm v)
              | none => none : JSNum).isSome ∧
            (Page.clampNonNegative (Page.num y)).isSome ∧
            jgt (Page.clampNonNegative (Page.num y)) (some 0) ∧
            jgt (match Page.clampNonNegative (Page.num x) with
              | some v => some (inchesToMm v)
              | none => none : JSNum)
              (jmul (some 2) (Page.clampNonNegative (Page.num y))))) :
    square x y L u = ⟨false, none, none⟩ := by
  simp only [square]
  rw [if_pos h]

theorem g2_square_ok_iff (x t : ℝ) (L : JSNum) (u : LenUnit) :
    (square (some x) (some t) L u).ok = true ↔ 0 < t ∧ 2 * t < inchesToMm x := by
  rw [← cond_iff x t]
  by_cases hc : ((match Page.clampNonNegative (Page.num (some x)) with
        | some v => some (inchesToMm v)
        | none => none : JSNum).isSome ∧
      (Page.clampNonNegative (Page.num (some t))).isSome ∧
      jgt (Page.clampNonNegative (Page.num (some t))) (some 0) ∧
      jgt (match Page.clampNonNegative (Page.num (some x)) with
        | some v => some (inchesToMm v)
        | none => none : JSNum)
        (jmul (some 2) (Page.clampNonNegative (Page.num (some t)))))
  · simp only [square]
    rw [if_neg (not_not_intro hc)]
    simpa using hc
  · rw [g2_square_invalid_of_dims _ _ _ _ hc]
    simpa using hc

theorem areaRound_pos {od t : ℝ} (h0 : 0 < t) (h2 : 2 * t < od) :
    ∃ a, areaRoundMm2 (some od) (some t) = some a ∧ 0 < a :=
  ⟨_, areaRoundMm2_eq od t (by linarith),
    by nlinarith [mul_pos (mul_pos Real.pi_pos h0) (show (0 : ℝ) < od - t by linarith)]⟩

theorem areaSquare_pos {s t : ℝ} (h0 : 0 < t) (h2 : 2 * t < s) :
    ∃ a, areaSquareTubeMm2 (some s) (some t) = some a ∧ 0 < a :=
  ⟨_, areaSquareTubeMm2_eq s t (by linarith),
    by nlinarith [mul_pos h0 (show (0 : ℝ) < s - t by linarith)]⟩

theorem kg_pos {a : ℝ} (ha : 0 < a) (u : LenUnit) :
    ∃ x, kgPerUnitFromArea (some a) u = some x ∧ 0 < x := by
  cases u <;>
    exact ⟨_, rfl,
      mul_pos (mul_pos ha (by norm_num [FT_TO_MM, M_TO_MM]))
        (by norm_num [STEEL_DENSITY_KG_PER_MM3])⟩

end Gen2

/-- C9: for every shape and fixed thickness, strictly increasing an
outer dimension inside the valid range strictly increases the computed
metal area, and hence the weight per unit: this holds for the part_000
shortcut weights of all three shapes (in both rectangle dimensions),
for the generation-1 round weight, for both generation-2 exact areas,
and `kgPerUnitFromArea` is itself strictly monotone in the area. -/
theorem c9_area_monotone :
    (∀ (t od od' : ℝ) (s w h L : JSNum), 0 < t → 2 * t < od → od < od' →
        jslt (Part0.result .round .mm (some od) s w h (some t) L).wPerUnit
          (Part0.result .round .mm (some od') s w h (some t) L).wPerUnit) ∧
    (∀ (t sd sd' : ℝ) (od w h L : JSNum), 0 < t → 2 * t < sd → sd < sd' →
        jslt (Part0.result .square .mm od (some sd) w h (some t) L).wPerUnit
          (Part0.result .square .mm od (some sd') w h (some t) L).wPerUnit) ∧
    (∀ (t wd wd' ht : ℝ) (od s L : JSNum),
        0 < t → 2 * t < wd → 2 * t < ht → wd < wd' →
        jslt (Part0.result .rectangle .mm od s (some wd) (some ht) (some t) L).wPerUnit
          (Part0.result .rectangle .mm od s (some wd') (some ht) (some t) L).wPerUnit) ∧
    (∀ (t wd ht ht' : ℝ) (od s L : JSNum),
        0 < t → 2 * t < wd → 2 * t < ht → ht < ht' →
        jslt (Part0.result .rectangle .mm od s (some wd) (some ht) (some t) L).wPerUnit
          (Part0.result .rectangle .mm od s (some wd) (some ht') (some t) L).wPerUnit) ∧
    (∀ (t od od' : ℝ) (L : JSNum) (u : LenUnit), 0 < t → t < od → od < od' →
        jslt (Gen1.round (some od) (some t) L u).wPerUnit
          (Gen1.round (some od') (some t) L u).wPerUnit) ∧
    (∀ t od od' : ℝ, 0 < t → 2 * t < od → od < od' →
        jslt (Gen2.areaRoundMm2 (some od) (some t))
          (Gen2.areaRoundMm2 (some od') (some t))) ∧
    (∀ t sd sd' : ℝ, 0 < t → 2 * t < sd → sd < sd' →
        jslt (Gen2.areaSquareTubeMm2 (some sd) (some t))
          (Gen2.areaSquareTubeMm2 (some sd') (some t))) ∧
    (∀ (a a' : ℝ) (u : LenUnit), a < a' →
        jslt (Gen2.kgPerUnitFromArea (some a) u) (Gen2.kgPerUnitFromArea (some a') u)) := by
  refine ⟨?_, ?_, ?_, ?_, ?_, ?_, ?_, ?_⟩
  · intro t od od' s w h L h0 h2 hlt
    rw [Part0.result_round_eq .mm od t s w h L h0 h2,
      Part0.result_round_eq .mm od' t s w h L h0 (h2.trans hlt)]
    simp only [Part0.mmR_mm]
    exact ⟨_, _, rfl, rfl, by nlinarith [mul_pos (sub_pos.mpr hlt) h0]⟩
  · intro t sd sd' od w h L h0 h2 hlt
    rw [Part0.result_square_eq .mm sd t od w h L h0 h2,
      Part0.result_square_eq .mm sd' t od w h L h0 (h2.trans hlt)]
    simp only [Part0.mmR_mm]
    exact ⟨_, _, rfl, rfl, by nlinarith [mul_pos (sub_pos.mpr hlt) h0]⟩
  · intro t wd wd' ht od s L h0 h2 h3 hlt
    rw [Part0.result_rect_eq .mm wd ht t od s L h0 h2 h3,
      Part0.result_rect_eq .mm wd' ht t od s L h0 (h2.trans hlt) h3]
    simp only [Part0.mmR_mm]
    exact ⟨_, _, rfl, rfl, by nlinarith [mul_pos (sub_pos.mpr hlt) h0]⟩
  · intro t wd ht ht' od s L h0 h2 h3 hlt
    rw [Part0.result_rect_eq .mm wd ht t od s L h0 h2 h3,
      Part0.result_rect_eq .mm wd ht' t od s L h0 h2 (h3.trans hlt)]
    simp only [Part0.mmR_mm]
    exact ⟨_, _, rfl, rfl, by nlinarith [mul_pos (sub_pos.mpr hlt) h0]⟩
  · intro t od od' L u h0 h1 hlt
    rw [Gen1.g1_round_eq_valid od t L u h0 h1,
      Gen1.g1_round_eq_valid od' t L u h0 (h1.trans hlt)]
    cases u <;>
      exact ⟨_, _, rfl, rfl, by nlinarith [mul_pos (sub_pos.mpr hlt) h0]⟩
  · intro t od od' h0 h2 hlt
    rw [Gen2.areaRoundMm2_eq od t (by linarith), Gen2.areaRoundMm2_eq od' t (by linarith)]
    refine ⟨_, _, rfl, rfl, ?_⟩
    have hinner : od * od - (od - 2 * t) * (od - 2 * t)
        < od' * od' - (od' - 2 * t) * (od' - 2 * t) := by
      nlinarith [mul_pos (sub_pos.mpr hlt) h0]
    have hq : (0 : ℝ) < Real.pi / 4 := by positivity
    exact mul_lt_mul_of_pos_left hinner hq
  · intro t sd sd' h0 h2 hlt
    rw [Gen2.areaSquareTubeMm2_eq sd t (by linarith), Gen2.areaSquareTubeMm2_eq sd' t (by linarith)]
    exact ⟨_, _, rfl, rfl, by nlinarith [mul_pos (sub_pos.mpr hlt) h0]⟩
  · intro a a' u hlt
    cases u <;>
      · rw [Gen2.kgPerUnitFromArea_some, Gen2.kgPerUnitFromArea_some]
        refine ⟨_, _, rfl, rfl, ?_⟩
        simp only [Gen2.FT_TO_MM, Gen2.M_TO_MM, Gen2.STEEL_DENSITY_KG_PER_MM3]
        nlinarith [hlt]

/-- C9 witness: growing the outer dimension from 10 mm to 12 mm at a
2 mm wall strictly increases the part_000 round weight and the
generation-2 round area. -/
theorem c9_area_monotone_witness :
    (0 : ℝ) < 2 ∧ 2 * (2 : ℝ) < 10 ∧ (10 : ℝ) < 12 ∧
    jslt (Part0.result .round .mm (some 10) none none none (some 2) none).wPerUnit
      (Part0.result .round .mm (some 12) none none none (some 2) none).wPerUnit ∧
    jslt (Gen2.areaRoundMm2 (some 10) (some 2)) (Gen2.areaRoundMm2 (some 12) (some 2)) :=
  ⟨by norm_num, by norm_num, by norm_num,
    c9_area_monotone.1 2 10 12 none none none none (by norm_num) (by norm_num) (by norm_num),
    c9_area_monotone.2.2.2.2.2.1 2 10 12 (by norm_num) (by norm_num) (by norm_num)⟩

/-- C10: whenever any generation reports `ok = true`, the weight per
unit is a finite strictly positive real (`some x` with `x > 0`) — never
the NaN sentinel, never zero — for part_000 (all shapes and units), for
both generation-1 memos and for both generation-2 memos. -/
theorem c10_ok_implies_positive_weight :
    (∀ (pt : Part0.PipeType) (u : Part0.DimUnit) (od s w h t L : JSNum),
        (Part0.result pt u od s w h t L).ok = true →
          ∃ x : ℝ, (Part0.result pt u od s w h t L).wPerUnit = some x ∧ 0 < x) ∧
    (∀ (od t L : JSNum) (u : LenUnit),
        (Gen1.round od t L u).ok = true →
          ∃ x : ℝ, (Gen1.round od t L u).wPerUnit = some x ∧ 0 < x) ∧
    (∀ (s t L : JSNum),
        (Gen1.square s t L).ok = true →
          ∃ x : ℝ, (Gen1.square s t L).wPerUnit = some x ∧ 0 < x) ∧
    (∀ (od t L : JSNum) (u : LenUnit),
        (Gen2.round od t L u).ok = true →
          ∃ x : ℝ, (Gen2.round od t L u).wPerUnit = some x ∧ 0 < x) ∧
    (∀ (s t L : JSNum) (u : LenUnit),
        (Gen2.square s t L u).ok = true →
          ∃ x : ℝ, (Gen2.square s t L u).wPerUnit = some x ∧ 0 < x) := by
  refine ⟨?_, ?_, ?_, ?_, ?_⟩
  · intro pt u od s w h t L hok
    cases t with
    | none =>
      rw [Part0.result_thickness_none] at hok
      simp [Part0.invalid] at hok
    | some tv =>
      cases pt with
      | round =>
        cases od with
        | none =>
          rw [Part0.result_round_od_none] at hok
          simp [Part0.invalid] at hok
        | some ov =>
          obtain ⟨h1, h2⟩ := (Part0.round_ok_iff u ov tv s w h L).mp hok
          rw [Part0.result_round_eq u ov tv s w h L h1 h2]
          have hkey : (0 : ℝ) < Part0.mmR u ov - Part0.mmR u tv := by linarith
          exact ⟨_, rfl, by nlinarith [mul_pos hkey h1]⟩
      | square =>
        cases s with
        | none =>
          rw [Part0.result_square_side_none] at hok
          simp [Part0.invalid] at hok
        | some sv =>
          obtain ⟨h1, h2⟩ := (Part0.square_ok_iff u sv tv od w h L).mp hok
          rw [Part0.result_square_eq u sv tv od w h L h1 h2]
          have hkey : (0 : ℝ) < Part0.mmR u sv - Part0.mmR u tv := by linarith
          exact ⟨_, rfl, by nlinarith [mul_pos h1 hkey]⟩
      | rectangle =>
        cases w with
        | none =>
          rw [Part0.result_rect_width_none] at hok
          simp [Part0.invalid] at hok
        | some wv =>
          cases h with
          | none =>
            rw [Part0.result_rect_height_none] at hok
            simp [Part0.invalid] at hok
          | some hv =>
            obtain ⟨h1, h2, h3⟩ := (Part0.rect_ok_iff u wv hv tv od s L).mp hok
            rw [Part0.result_rect_eq u wv hv tv od s L h1 h2 h3]
            have hkey : (0 : ℝ) < Part0.mmR u wv + Part0.mmR u hv - 2 * Part0.mmR u tv := by
              linarith
            exact ⟨_, rfl, by nlinarith [mul_pos h1 hkey]⟩
  · intro od t L u hok
    cases od with
    | none =>
      rw [Gen1.g1_round_invalid_of_dims none t L u (by simp [Page.num])] at hok
      simp at hok
    | some ov =>
      cases t with
      | none =>
        rw [Gen1.g1_round_invalid_of_dims (some ov) none L u (by simp [Page.num])] at hok
        simp at hok
      | some tv =>
        obtain ⟨h0, h1⟩ := (Gen1.g1_round_ok_iff ov tv L u).mp hok
        rw [Gen1.g1_round_eq_valid ov tv L u h0 h1]
        have hkey : (0 : ℝ) < ov - tv := by linarith
        cases u <;> exact ⟨_, rfl, by nlinarith [mul_pos hkey h0]⟩
  · intro s t L hok
    cases s with
    | none =>
      rw [Gen1.g1_square_invalid_of_dims none t L (by simp [Page.num])] at hok
      simp at hok
    | some sv =>
      cases t with
      | none =>
        rw [Gen1.g1_square_invalid_of_dims (some sv) none L (by simp [Page.num])] at hok
        simp at hok
      | some tv =>
        obtain ⟨h0, h1⟩ := (Gen1.g1_square_ok_iff sv tv L).mp hok
        rw [Gen1.g1_square_eq_valid sv tv L h0 h1]
        have hkey : (0 : ℝ) < sv - tv := by linarith
        exact ⟨_, rfl, by nlinarith [mul_pos h0 hkey]⟩
  · intro od t L u hok
    cases od with
    | none =>
      rw [Gen2.g2_round_invalid_of_dims none t L u (by simp [Page.num])] at hok
      simp at hok
    | some ov =>
      cases t with
      | none =>
        rw [Gen2.g2_round_invalid_of_dims (some ov) none L u (by simp [Page.num])] at hok
        simp at hok
      | some tv =>
        obtain ⟨h0, h2⟩ := (Gen2.g2_round_ok_iff ov tv L u).mp hok
        have hpos : 0 < ov := by
          have h2x := h2
          simp only [Gen2.inchesToMm, Gen2.IN_TO_MM] at h2x
          linarith
        rw [Gen2.g2_round_eq_valid ov tv L u hpos.le h0 h2]
        obtain ⟨a, haeq, hapos⟩ := Gen2.areaRound_pos h0 h2
        obtain ⟨x, hxeq, hxpos⟩ := Gen2.kg_pos hapos u
        refine ⟨x, ?_, hxpos⟩
        show Gen2.kgPerUnitFromArea
          (Gen2.areaRoundMm2 (some (Gen2.inchesToMm ov)) (some tv)) u = some x
        rw [haeq]
        exact hxeq
  · intro s t L u hok
    cases s with
    | none =>
      rw [Gen2.g2_square_invalid_of_dims none t L u (by simp [Page.num])] at hok
      simp at hok
    | some sv =>
      cases t with
      | none =>
        rw [Gen2.g2_square_invalid_of_dims (some sv) none L u (by simp [Page.num])] at hok
        simp at hok
      | some tv =>
        obtain ⟨h0, h2⟩ := (Gen2.g2_square_ok_iff sv tv L u).mp hok
        have hpos : 0 < sv := by
          have h2x := h2
          simp only [Gen2.inchesToMm, Gen2.IN_TO_MM] at h2x
          linarith
        rw [Gen2.g2_square_eq_valid sv tv L u hpos.le h0 h2]
        obtain ⟨a, haeq, hapos⟩ := Gen2.areaSquare_pos h0 h2
        obtain ⟨x, hxeq, hxpos⟩ := Gen2.kg_pos hapos u
        refine ⟨x, ?_, hxpos⟩
        show Gen2.kgPerUnitFromArea
          (Gen2.areaSquareTubeMm2 (some (Gen2.inchesToMm sv)) (some tv)) u = some x
        rw [haeq]
        exact hxeq

/-- C10 witness: two concrete valid profiles — part_000 round 10 mm OD
with a 2 mm wall, and generation-2 round 2 in OD with a 2 mm wall —
report `ok` and carry a finite positive weight per unit. -/
theorem c10_ok_implies_positive_weight_witness :
    (Part0.result .round .mm (some 10) none none none (some 2) none).ok = true ∧
    (∃ x : ℝ,
        (Part0.result .round .mm (some 10) none none none (some 2) none).wPerUnit = some x ∧
          0 < x) ∧
    (Gen2.round (some 2) (some 2) none .ft).ok = true ∧
    (∃ x : ℝ, (Gen2.round (some 2) (some 2) none .ft).wPerUnit = some x ∧ 0 < x) := by
  have h1 : (Part0.result .round .mm (some 10) none none none (some 2) none).ok = true :=
    (Part0.round_ok_iff .mm 10 2 none none none none).mpr (by norm_num)
  have h2 : (Gen2.round (some 2) (some 2) none .ft).ok = true :=
    (Gen2.g2_round_ok_iff 2 2 none .ft).mpr (by norm_num [Gen2.inchesToMm, Gen2.IN_TO_MM])
  exact ⟨h1,
    c10_ok_implies_positive_weight.1 .round .mm (some 10) none none none (some 2) none h1,
    h2, c10_ok_implies_positive_weight.2.2.2.1 (some 2) (some 2) none .ft h2⟩

namespace Part0

end Part0

namespace Page

end Page

namespace Gen1

end Gen1

namespace Gen2

end Gen2

/-- C4: the total weight is weight-per-unit × L exactly when the run
length is a present, finite, strictly positive number, and NaN
otherwise, while the weight-per-unit field (and the validity flag) do
not depend on the length input at all — proved for part_000 (all
shapes, all units), for the generation-2 round memo, and for both
generation-1 memos (the `hasLen`/`total` lines of page.tsx); the model
is total, so no exception can be raised for any numeric input. -/
theorem c4_total_weight :
    (∀ (pt : Part0.PipeType) (u : Part0.DimUnit) (od s w h t : JSNum) (l : ℝ), 0 < l →
        (Part0.result pt u od s w h t (some l)).total
          = jmul (Part0.result pt u od s w h t (some l)).wPerUnit (some l)) ∧
    (∀ (pt : Part0.PipeType) (u : Part0.DimUnit) (od s w h t : JSNum) (l : ℝ), ¬ 0 < l →
        (Part0.result pt u od s w h t (some l)).total = none) ∧
    (∀ (pt : Part0.PipeType) (u : Part0.DimUnit) (od s w h t : JSNum),
        (Part0.result pt u od s w h t none).total = none) ∧
    (∀ (pt : Part0.PipeType) (u : Part0.DimUnit) (od s w h t L L' : JSNum),
        (Part0.result pt u od s w h t L).wPerUnit
            = (Part0.result pt u od s w h t L').wPerUnit ∧
          (Part0.result pt u od s w h t L).ok = (Part0.result pt u od s w h t L').ok) ∧
    (∀ (x y : JSNum) (u : LenUnit) (l : ℝ), 0 < l →
        (Gen2.round x y (some l) u).total
          = jmul (Gen2.round x y (some l) u).wPerUnit (some l)) ∧
    (∀ (x y : JSNum) (u : LenUnit) (l : ℝ), ¬ 0 < l →
        (Gen2.round x y (some l) u).total = none) ∧
    (∀ (x y : JSNum) (u : LenUnit), (Gen2.round x y none u).total = none) ∧
    (∀ (x y L L' : JSNum) (u : LenUnit),
        (Gen2.round x y L u).wPerUnit = (Gen2.round x y L' u).wPerUnit) ∧
    (∀ (x y : JSNum) (u : LenUnit) (l : ℝ), 0 < l →
        (Gen1.round x y (some l) u).total
          = jmul (Gen1.round x y (some l) u).wPerUnit (some l)) ∧
    (∀ (x y : JSNum) (u : LenUnit) (l : ℝ), ¬ 0 < l →
        (Gen1.round x y (some l) u).total = none) ∧
    (∀ (x y : JSNum) (u : LenUnit), (Gen1.round x y none u).total = none) ∧
    (∀ (x y L L' : JSNum) (u : LenUnit),
        (Gen1.round x y L u).wPerUnit = (Gen1.round x y L' u).wPerUnit) ∧
    (∀ (x y : JSNum) (l : ℝ), 0 < l →
        (Gen1.square x y (some l)).total
          = jmul (Gen1.square x y (some l)).wPerUnit (some l)) ∧
    (∀ (x y : JSNum) (l : ℝ), ¬ 0 < l → (Gen1.square x y (some l)).total = none) ∧
    (∀ (x y : JSNum), (Gen1.square x y none).total = none) ∧
    (∀ (x y L L' : JSNum),
        (Gen1.square x y L).wPerUnit = (Gen1.square x y L').wPerUnit) := by
  refine ⟨?_, ?_, ?_, ?_, ?_, ?_, ?_, ?_, ?_, ?_, ?_, ?_, ?_, ?_, ?_, ?_⟩
  · intro pt u od s w h t l hl
    cases pt <;>
      (simp only [Part0.result, Part0.n_id]; split_ifs <;>
        simp [Part0.invalid, Part0.assemble, hl])
  · intro pt u od s w h t l hl
    cases pt <;>
      (simp only [Part0.result, Part0.n_id]; split_ifs <;>
        simp [Part0.invalid, Part0.assemble, hl])
  · intro pt u od s w h t
    cases pt <;>
      (simp only [Part0.result, Part0.n_id]; split_ifs <;>
        simp [Part0.invalid, Part0.assemble])
  · intro pt u od s w h t L L'
    cases pt <;>
      (simp only [Part0.result, Part0.n_id]; split_ifs <;> exact ⟨rfl, rfl⟩)
  · intro x y u l hl
    simp only [Gen2.round, Page.num_some, Page.clampNonNegative_some_of_nonneg hl.le]
    split_ifs <;> first | rfl | (exfalso; simp_all)
  · intro x y u l hl
    rcases Page.clamp_cases l with ⟨hge, hceq⟩ | ⟨hlt, hceq⟩ <;>
      · simp only [Gen2.round, Page.num_some, hceq]
        split_ifs <;> first | rfl | (exfalso; simp_all <;> linarith)
  · intro x y u
    simp only [Gen2.round, Page.num_none, Page.clampNonNegative_none]
    split_ifs <;> first | rfl | (exfalso; simp_all)
  · intro x y L L' u
    simp only [Gen2.round]
    split_ifs <;> rfl
  · intro x y u l hl
    simp only [Gen1.round, Page.num_some, Page.clampNonNegative_some_of_nonneg hl.le]
    split_ifs <;> first | rfl | (exfalso; simp_all)
  · intro x y u l hl
    rcases Page.clamp_cases l with ⟨hge, hceq⟩ | ⟨hlt, hceq⟩ <;>
      · simp only [Gen1.round, Page.num_some, hceq]
        split_ifs <;> first | rfl | (exfalso; simp_all <;> linarith)
  · intro x y u
    simp only [Gen1.round, Page.num_none, Page.clampNonNegative_none]
    split_ifs <;> first | rfl | (exfalso; simp_all)
  · intro x y L L' u
    simp only [Gen1.round]
    split_ifs <;> rfl
  · intro x y l hl
    simp only [Gen1.square, Page.num_some, Page.clampNonNegative_some_of_nonneg hl.le]
    split_ifs <;> first | rfl | (exfalso; simp_all)
  · intro x y l hl
    rcases Page.clamp_cases l with ⟨hge, hceq⟩ | ⟨hlt, hceq⟩ <;>
      · simp only [Gen1.square, Page.num_some, hceq]
        split_ifs <;> first | rfl | (exfalso; simp_all <;> linarith)
  · intro x y
    simp only [Gen1.square, Page.num_none, Page.clampNonNegative_none]
    split_ifs <;> first | rfl | (exfalso; simp_all)
  · intro x y L L'
    simp only [Gen1.square]
    split_ifs <;> rfl

/-- C4 witness: concrete totals — a 50 mm / 2 mm square tube over 6 m in
part_000, a 2 in / 2 mm round tube over 6 m in generation 2, a
2 in / 1 in round tube over 6 ft in generation 1, and a 50 mm / 2 mm
square tube over 6 m in generation 1. -/
theorem c4_total_weight_witness :
    (0 : ℝ) < 6 ∧
    (Part0.result .square .mm none (some 50) none none (some 2) (some 6)).total
      = jmul ((Part0.result .square .mm none (some 50) none none (some 2) (some 6)).wPerUnit)
          (some 6) ∧
    (Gen2.round (some 2) (some 2) (some 6) .m).total
      = jmul ((Gen2.round (some 2) (some 2) (some 6) .m).wPerUnit) (some 6) ∧
    (Gen1.round (some 2) (some 1) (some 6) .ft).total
      = jmul ((Gen1.round (some 2) (some 1) (some 6) .ft).wPerUnit) (some 6) ∧
    (Gen1.square (some 50) (some 2) (some 6)).total
      = jmul ((Gen1.square (some 50) (some 2) (some 6)).wPerUnit) (some 6) :=
  ⟨by norm_num,
    c4_total_weight.1 .square .mm none (some 50) none none (some 2) 6 (by norm_num),
    c4_total_weight.2.2.2.2.1 (some 2) (some 2) .m 6 (by norm_num),
    c4_total_weight.2.2.2.2.2.2.2.2.1 (some 2) (some 1) .ft 6 (by norm_num),
    c4_total_weight.2.2.2.2.2.2.2.2.2.2.2.2.1 (some 50) (some 2) 6 (by norm_num)⟩
